import Mathlib

/-!
Shallow embedding of the Barbados property scraper (`src/main.py`,
class `BarbadosPropertyScraper`) and verification of its specification.

Modelling conventions:
* a parsed HTML page is abstracted to the results of the CSS selectors the
  code applies to it (`Option String` for a `select_one` hit, lists of raw
  texts for `select`); `get_text(strip=True)` is modelled by `strTrim`
  applied to the element's raw text, attribute access (`['href']`,
  `['content']`) returns the raw attribute value;
* Python dicts built by insertion are modelled as association lists in
  insertion order (`dictInsert` overwrites in place like a dict assignment,
  `dictGet?` / `dictGetD` model `d.get(k)` / `d.get(k, default)`);
* the network is a `Site`: a pair of functions giving, for each URL, the
  parsed index page respectively listing page it serves;
* the unbounded pagination recursion of `scrape_page` is given a fuel
  parameter; `none` models non-termination / fuel exhaustion.
-/

/-- Character-list test: `p` is a prefix of `s` (Boolean, executable). -/
def hasPfxChars : List Char → List Char → Bool
  | _, [] => true
  | [], _ :: _ => false
  | a :: s, b :: p => a == b && hasPfxChars s p

/-- Character-list substring containment, modelling Python's `pat in s`. -/
def containsChars : List Char → List Char → Bool
  | [], p => p.isEmpty
  | a :: t, p => hasPfxChars (a :: t) p || containsChars t p

/-- Substring containment on strings, modelling Python's `pat in s`. -/
def strContainsSub (s pat : String) : Bool :=
  containsChars s.data pat.data

/-- ASCII lowercasing, modelling Python's `str.lower()`. -/
def strToLower (s : String) : String :=
  ⟨s.data.map Char.toLower⟩

/-- Embeds `BarbadosPropertyScraper.determine_transaction_type` (src/main.py
lines 17-24): `'Sale'` if the lowercased start URL contains `"sale"`, else
`'Rent'` if it contains `"rent"`, else `None`. -/
def determine_transaction_type (start_url : String) : Option String :=
  if strContainsSub (strToLower start_url) "sale" then some "Sale"
  else if strContainsSub (strToLower start_url) "rent" then some "Rent"
  else none

/-- If `p` is a prefix of `s`, return the remainder of `s` after `p`. -/
def dropPfxChars : List Char → List Char → Option (List Char)
  | s, [] => some s
  | [], _ :: _ => none
  | a :: s, b :: p => if a == b then dropPfxChars s p else none

/-- Fuelled replace-all: replaces each non-overlapping, leftmost-first
occurrence of `p` in the input by `r`, modelling Python's `str.replace`.
The fuel is one unit per input character, which always suffices because
every recursive call consumes at least one input character. -/
def replaceCharsAux (p r : List Char) : Nat → List Char → List Char
  | _, [] => []
  | 0, s => s
  | Nat.succ n, a :: t =>
    match dropPfxChars (a :: t) p with
    | some rest =>
      if p.isEmpty then a :: replaceCharsAux p r n t
      else r ++ replaceCharsAux p r n rest
    | none => a :: replaceCharsAux p r n t

/-- Replace every occurrence of `p` by `r`, modelling Python `str.replace`. -/
def replaceChars (p r s : List Char) : List Char :=
  replaceCharsAux p r s.length s

/-- Python regex `\w`, which on a Python 3 `str` is Unicode-aware:
underscore or any Unicode alphanumeric (alphabetic, decimal, digit or
numeric). The Unicode classification is embedded exactly for the ranges on
which this development evaluates it: all of ASCII, and the Latin-1
supplement U+00A0-U+00FF, whose word characters are the letters
U+00C0-U+00D6, U+00D8-U+00F6, U+00F8-U+00FF together with
ª ² ³ µ ¹ º ¼ ½ ¾. Codepoints above U+00FF are not classified (the
development never evaluates `\w` there; every universally quantified
theorem about `sanitize_filename` restricts its input to ASCII). -/
def isWordChar (c : Char) : Bool :=
  c.isAlphanum || c == '_' ||
  (0xC0 ≤ c.toNat && c.toNat ≤ 0xFF && c.toNat != 0xD7 && c.toNat != 0xF7) ||
  c.toNat == 0xAA || c.toNat == 0xB2 || c.toNat == 0xB3 || c.toNat == 0xB5 ||
  c.toNat == 0xB9 || c.toNat == 0xBA || c.toNat == 0xBC || c.toNat == 0xBD ||
  c.toNat == 0xBE

/-- One character of `re.sub(r'[^\w\-_.]', '_', ...)`: characters not
matched by `\w` and different from `-` and `.` become `'_'`, all others
are kept. -/
def sanitizeChar (c : Char) : Char :=
  if isWordChar c || c == '-' || c == '.' then c else '_'

/-- ASCII codepoint test. -/
def isAsciiChar (c : Char) : Bool :=
  c.toNat < 128

/-- Embeds `BarbadosPropertyScraper.sanitize_filename` (src/main.py lines
145-148): strip all occurrences of `https://` then `http://`, then apply
`re.sub(r'[^\w\-_.]', '_', ...)`, replacing every character not matched by
`\w` and different from `-` and `.` with `'_'`. -/
def sanitize_filename (url : String) : String :=
  ⟨(replaceChars "http://".data [] (replaceChars "https://".data [] url.data)).map sanitizeChar⟩

/-- Characters admissible in a sanitized filename: `[A-Za-z0-9_.-]`. -/
def allowedChar (c : Char) : Bool :=
  c.isAlphanum || c == '_' || c == '-' || c == '.'

/-- Whitespace trimming on both ends, modelling the stripping that
`get_text(strip=True)` performs (kernel-reducible, unlike `String.trim`). -/
def strTrim (s : String) : String :=
  ⟨((s.data.dropWhile Char.isWhitespace).reverse.dropWhile Char.isWhitespace).reverse⟩

/-- Python dict assignment `d[k] = v` on an insertion-ordered association
list: overwrite in place when the key exists, else append. -/
def dictInsert (d : List (String × String)) (k v : String) : List (String × String) :=
  if d.any (fun kv => kv.1 == k) then
    d.map (fun kv => if kv.1 == k then (k, v) else kv)
  else d ++ [(k, v)]

/-- Python `d.get(k)`: value of the first entry with key `k`, if any. -/
def dictGet? (d : List (String × String)) (k : String) : Option String :=
  (d.find? (fun kv => kv.1 == k)).map Prod.snd

/-- Python `d.get(k, dflt)`. -/
def dictGetD (d : List (String × String)) (k : String) (dflt : String) : String :=
  (dictGet? d k).getD dflt

/-- Abstraction of one parsed listing page: for each selector the code
applies in `scrape_listing` (src/main.py lines 53-122), the raw result it
yields (`none` when the selector matches no element). Texts are stored raw;
`get_text(strip=True)` is applied by the extractor as `strTrim`. -/
structure ListingPage where
  rentalPriceEl : Option String
  propertyReferenceEl : Option String
  salePriceEl : Option String
  externalLinkHref : Option String
  nameMeta : Option String
  latitudeMeta : Option String
  longitudeMeta : Option String
  mapsAnchorText : Option String
  fallbackAddressEl : Option String
  propertyTypeEl : Option String
  descriptionEl : Option String
  furtherInfo : Option (List String × List String)
  amenitiesItems : Option (List String)
deriving DecidableEq

/-- Python `el.get_text(strip=True) if el else '-'`. -/
def getTextOrDash : Option String → String
  | some t => strTrim t
  | none => "-"

/-- Python `el[attr] if el else '-'` (raw attribute value, no stripping). -/
def attrOrDash : Option String → String
  | some v => v
  | none => "-"

/-- Python `label.get_text(strip=True).replace(":", "")` (src/main.py
line 116): trim, then delete every colon. -/
def cleanLabel (s : String) : String :=
  ⟨replaceChars ":".data [] (strTrim s).data⟩

/-- The characteristics-building loop of src/main.py lines 115-118: fold
dict assignment over the zipped (label, item) pairs. -/
def buildCharacteristics (pairs : List (String × String)) : List (String × String) :=
  pairs.foldl (fun d li => dictInsert d (cleanLabel li.1) (strTrim li.2)) []

/-- The `Area` expression of src/main.py line 131:
`characteristics.get('Land Area') or characteristics.get('Floor Area', 'N/A')`.
Python `or` falls through when the left side is `None` or the empty string. -/
def areaOf (characteristics : List (String × String)) : String :=
  match dictGet? characteristics "Land Area" with
  | some v => if v = "" then dictGetD characteristics "Floor Area" "N/A" else v
  | none => dictGetD characteristics "Floor Area" "N/A"

/-- One scraped property record: the `property_data` dict built at
src/main.py lines 125-140. -/
structure PropertyData where
  url : String
  name : String
  address : String
  salePrice : String
  rentPrice : String
  area : String
  description : String
  latitude : String
  longitude : String
  property_type : String
  transaction_type : Option String
  characteristics : List (String × String)
  amenities : List String
  more_information : List (String × String)
deriving DecidableEq

/-- Embeds `BarbadosPropertyScraper.scrape_listing` (src/main.py lines
53-143) as a pure function from the fetched page to the record it appends. -/
def scrape_listing (url : String) (transaction_type : Option String)
    (page : ListingPage) : PropertyData :=
  let rental_price := getTextOrDash page.rentalPriceEl
  let property_reference := getTextOrDash page.propertyReferenceEl
  let sale_price := getTextOrDash page.salePriceEl
  let external_link := attrOrDash page.externalLinkHref
  let more_info : List (String × String) :=
    [("Rental Price", rental_price), ("Property Reference", property_reference),
     ("Sale Price", sale_price), ("External Link", external_link)]
  let name := attrOrDash page.nameMeta
  let latitude := attrOrDash page.latitudeMeta
  let longitude := attrOrDash page.longitudeMeta
  let address :=
    match page.mapsAnchorText with
    | some t => strTrim t
    | none => getTextOrDash page.fallbackAddressEl
  let property_type := getTextOrDash page.propertyTypeEl
  let description := getTextOrDash page.descriptionEl
  let characteristics :=
    match page.furtherInfo with
    | some li => buildCharacteristics (li.1.zip li.2)
    | none => []
  let amenities :=
    match page.amenitiesItems with
    | some lis => lis.map strTrim
    | none => []
  { url := url
    name := name
    address := address
    salePrice := dictGetD more_info "Sale Price" "-"
    rentPrice := dictGetD more_info "Rental Price" "-"
    area := areaOf characteristics
    description := description
    latitude := latitude
    longitude := longitude
    property_type := property_type
    transaction_type := transaction_type
    characteristics := characteristics
    amenities := amenities
    more_information := more_info }

/-- Abstraction of one parsed index page: the `href` attributes of the
listing-card anchors (`div.field-item.even h5 a`), in document order, and
the optional `li.pager-next a` href. -/
structure IndexPage where
  listingHrefs : List String
  nextHref : Option String
deriving DecidableEq

/-- The network: which parsed index page / listing page each URL serves.
Fetch failures are fatal in the code (fail-fast, nothing to model). -/
structure Site where
  fetchIndex : String → IndexPage
  fetchListing : String → ListingPage

/-- The scraper's mutable state: `self.scraped_urls` (a set, modelled as the
list of its elements) and `self.data` (in discovery order). -/
structure ScraperState where
  scraped_urls : List String
  data : List PropertyData
deriving DecidableEq

/-- The constant `self.base_url` of src/main.py line 11. -/
def base_url : String := "https://www.barbadospropertysearch.com"

/-- The per-index-page listing loop of `scrape_page` (src/main.py lines
39-45): for each listing href, resolve against `base_url`; if the resolved
URL is not yet in `scraped_urls`, add it and extract the listing, appending
the record to `data`. -/
def processListings (site : Site) (transaction_type : Option String) :
    List String → ScraperState → ScraperState
  | [], st => st
  | href :: rest, st =>
    let property_url := base_url ++ href
    if st.scraped_urls.contains property_url then
      processListings site transaction_type rest st
    else
      processListings site transaction_type rest
        { scraped_urls := property_url :: st.scraped_urls
          data := st.data ++
            [scrape_listing property_url transaction_type (site.fetchListing property_url)] }

/-- Embeds `BarbadosPropertyScraper.scrape_page` (src/main.py lines 33-51).
The Python recursion is unbounded; here it runs on fuel, and `none` models
fuel exhaustion (i.e. the walk not having terminated within `fuel` pages).
Returns the final state together with the trace of index-page URLs fetched,
in order. -/
def scrape_page (site : Site) (transaction_type : Option String) :
    Nat → String → ScraperState → Option (ScraperState × List String)
  | 0, _, _ => none
  | Nat.succ fuel, url, st =>
    let page := site.fetchIndex url
    let st1 := processListings site transaction_type page.listingHrefs st
    match page.nextHref with
    | none => some (st1, [url])
    | some h =>
      match scrape_page site transaction_type fuel (base_url ++ h) st1 with
      | none => none
      | some str => some (str.1, url :: str.2)

/-- The crawl part of `BarbadosPropertyScraper.scrape` (src/main.py lines
26-31): compute the transaction type from the start URL once, then walk the
pagination from the start URL with empty initial state. -/
def scrape (site : Site) (start_url : String) (fuel : Nat) :
    Option (ScraperState × List String) :=
  scrape_page site (determine_transaction_type start_url) fuel start_url
    { scraped_urls := [], data := [] }

/-- Number of records in `data` whose `url` field is `u`. -/
def countRecords (data : List PropertyData) (u : String) : Nat :=
  (data.filter (fun r => r.url == u)).length

/-- A finite chain of index pages starting at `u`: each page links to the
next via its pager href, and the last page has no pager link. The list is
the sequence of index-page URLs in order. -/
inductive IndexChain (site : Site) : String → List String → Prop
  | last (u : String) : (site.fetchIndex u).nextHref = none → IndexChain site u [u]
  | step (u h : String) (rest : List String) :
      (site.fetchIndex u).nextHref = some h →
      IndexChain site (base_url ++ h) rest →
      IndexChain site u (u :: rest)

/-- A listing page on which every selector misses. -/
def emptyPage : ListingPage :=
  ⟨none, none, none, none, none, none, none, none, none, none, none, none, none⟩

/-- A listing page whose further-information section pairs a `Land Area`
label with a whitespace-only item (trimming to the empty string). -/
def cexPage : ListingPage :=
  { emptyPage with furtherInfo := some (["Land Area:", "Floor Area:"], [" ", "1200 sqft"]) }

/-- A listing page with a non-empty `Land Area` characteristic. -/
def landPage : ListingPage :=
  { emptyPage with furtherInfo := some (["Land Area:"], ["5000 sqft"]) }

/-- A listing page with a maps anchor. -/
def mapsPage : ListingPage :=
  { emptyPage with mapsAnchorText := some "  St. James  " }

/-- A listing page with no maps anchor but a fallback location element. -/
def fbPage : ListingPage :=
  { emptyPage with fallbackAddressEl := some " Bridgetown " }

/-- A listing page with a two-entry further-information section. -/
def c9Page : ListingPage :=
  { emptyPage with furtherInfo := some ([" Bedrooms: ", "Bathrooms:"], [" 3 ", "2"]) }

/-- Start URL of the two-page example site. -/
def wStart : String := "start"

/-- A concrete site with two index pages; the listing with href `/a` is
discoverable from both of them. -/
def wSite : Site :=
  { fetchIndex := fun u =>
      if u == wStart then { listingHrefs := ["/a", "/b"], nextHref := some "/p2" }
      else if u == base_url ++ "/p2" then { listingHrefs := ["/a", "/c"], nextHref := none }
      else { listingHrefs := [], nextHref := none }
    fetchListing := fun _ => emptyPage }

/-- The full run of the scraper on the example site. -/
def wRun : Option (ScraperState × List String) := scrape wSite wStart 2

/-- Final state of the example run. -/
def wSt : ScraperState := (wRun.getD ({ scraped_urls := [], data := [] }, [])).1

/-- Index-page trace of the example run. -/
def wTr : List String := (wRun.getD ({ scraped_urls := [], data := [] }, [])).2

/-- First record produced by the example run. -/
def wRec : PropertyData := wSt.data.getD 0 (scrape_listing "x" none emptyPage)

/-- The dedup invariant relating `data` to `scraped_urls`: a URL has exactly
one record if it has been entered into the visited set, none otherwise. -/
def StateInv (st : ScraperState) : Prop :=
  ∀ u, countRecords st.data u = if st.scraped_urls.contains u then 1 else 0

theorem scrape_listing_url (u : String) (tt : Option String) (p : ListingPage) :
    (scrape_listing u tt p).url = u := rfl

theorem scrape_listing_tt (u : String) (tt : Option String) (p : ListingPage) :
    (scrape_listing u tt p).transaction_type = tt := rfl

theorem scrape_listing_characteristics (u : String) (tt : Option String) (p : ListingPage) :
    (scrape_listing u tt p).characteristics =
      (match p.furtherInfo with
       | some li => buildCharacteristics (li.1.zip li.2)
       | none => []) := rfl

theorem scrape_listing_area (u : String) (tt : Option String) (p : ListingPage) :
    (scrape_listing u tt p).area = areaOf (scrape_listing u tt p).characteristics := rfl

theorem scrape_listing_address (u : String) (tt : Option String) (p : ListingPage) :
    (scrape_listing u tt p).address =
      (match p.mapsAnchorText with
       | some t => strTrim t
       | none => getTextOrDash p.fallbackAddressEl) := rfl

theorem scrape_listing_salePrice (u : String) (tt : Option String) (p : ListingPage) :
    (scrape_listing u tt p).salePrice = getTextOrDash p.salePriceEl := rfl

theorem scrape_listing_rentPrice (u : String) (tt : Option String) (p : ListingPage) :
    (scrape_listing u tt p).rentPrice = getTextOrDash p.rentalPriceEl := rfl

/-- C8: for every extracted record, the top-level `Sale Price` field equals
the `Sale Price` entry of the record's `more info` mapping, and the
top-level `Rent Price` field equals its `Rental Price` entry. -/
theorem price_duplication_consistent (u : String) (tt : Option String) (p : ListingPage) :
    dictGet? (scrape_listing u tt p).more_information "Sale Price" =
      some (scrape_listing u tt p).salePrice ∧
    dictGet? (scrape_listing u tt p).more_information "Rental Price" =
      some (scrape_listing u tt p).rentPrice :=
  ⟨rfl, rfl⟩

/-- C10: the `more info` mapping of every record has exactly the four keys
`Rental Price`, `Property Reference`, `Sale Price`, `External Link` (in
insertion order), each bound to the extracted text/href or the sentinel. -/
theorem more_info_exactly_four_keys (u : String) (tt : Option String) (p : ListingPage) :
    (scrape_listing u tt p).more_information.map Prod.fst =
      ["Rental Price", "Property Reference", "Sale Price", "External Link"] ∧
    dictGet? (scrape_listing u tt p).more_information "Rental Price" =
      some (getTextOrDash p.rentalPriceEl) ∧
    dictGet? (scrape_listing u tt p).more_information "Property Reference" =
      some (getTextOrDash p.propertyReferenceEl) ∧
    dictGet? (scrape_listing u tt p).more_information "Sale Price" =
      some (getTextOrDash p.salePriceEl) ∧
    dictGet? (scrape_listing u tt p).more_information "External Link" =
      some (attrOrDash p.externalLinkHref) :=
  ⟨rfl, rfl, rfl, rfl, rfl⟩

/-- C3: on every listing page where an optional field's selector matches no
element, the extractor still produces a record whose corresponding field is
the documented sentinel: `"-"` for the scalar fields, `[]` for amenities,
the empty mapping for characteristics. -/
theorem missing_field_sentinels (u : String) (tt : Option String) (p : ListingPage) :
    (p.nameMeta = none → (scrape_listing u tt p).name = "-") ∧
    (p.latitudeMeta = none → (scrape_listing u tt p).latitude = "-") ∧
    (p.longitudeMeta = none → (scrape_listing u tt p).longitude = "-") ∧
    (p.mapsAnchorText = none → p.fallbackAddressEl = none →
      (scrape_listing u tt p).address = "-") ∧
    (p.propertyTypeEl = none → (scrape_listing u tt p).property_type = "-") ∧
    (p.descriptionEl = none → (scrape_listing u tt p).description = "-") ∧
    (p.salePriceEl = none → (scrape_listing u tt p).salePrice = "-") ∧
    (p.rentalPriceEl = none → (scrape_listing u tt p).rentPrice = "-") ∧
    (p.externalLinkHref = none →
      dictGet? (scrape_listing u tt p).more_information "External Link" = some "-") ∧
    (p.propertyReferenceEl = none →
      dictGet? (scrape_listing u tt p).more_information "Property Reference" = some "-") ∧
    (p.amenitiesItems = none → (scrape_listing u tt p).amenities = []) ∧
    (p.furtherInfo = none → (scrape_listing u tt p).characteristics = []) := by
  refine ⟨fun h => ?_, fun h => ?_, fun h => ?_, fun h1 h2 => ?_, fun h => ?_, fun h => ?_,
    fun h => ?_, fun h => ?_, fun h => ?_, fun h => ?_, fun h => ?_, fun h => ?_⟩ <;>
    simp [scrape_listing, attrOrDash, getTextOrDash, dictGet?, dictGetD, *]

/-- Witness for C3: on the all-selectors-missing page, every field of the
record is its sentinel. -/
theorem missing_field_sentinels_witness :
    (scrape_listing "u" none emptyPage).name = "-" ∧
    (scrape_listing "u" none emptyPage).latitude = "-" ∧
    (scrape_listing "u" none emptyPage).longitude = "-" ∧
    (scrape_listing "u" none emptyPage).address = "-" ∧
    (scrape_listing "u" none emptyPage).property_type = "-" ∧
    (scrape_listing "u" none emptyPage).description = "-" ∧
    (scrape_listing "u" none emptyPage).salePrice = "-" ∧
    (scrape_listing "u" none emptyPage).rentPrice = "-" ∧
    dictGet? (scrape_listing "u" none emptyPage).more_information "External Link" = some "-" ∧
    dictGet? (scrape_listing "u" none emptyPage).more_information "Property Reference" = some "-" ∧
    (scrape_listing "u" none emptyPage).amenities = [] ∧
    (scrape_listing "u" none emptyPage).characteristics = [] := by
  have h := missing_field_sentinels "u" none emptyPage
  exact ⟨h.1 rfl, h.2.1 rfl, h.2.2.1 rfl, h.2.2.2.1 rfl rfl, h.2.2.2.2.1 rfl,
    h.2.2.2.2.2.1 rfl, h.2.2.2.2.2.2.1 rfl, h.2.2.2.2.2.2.2.1 rfl,
    h.2.2.2.2.2.2.2.2.1 rfl, h.2.2.2.2.2.2.2.2.2.1 rfl,
    h.2.2.2.2.2.2.2.2.2.2.1 rfl, h.2.2.2.2.2.2.2.2.2.2.2 rfl⟩

/-- C7: the address is extracted by prioritized fallback: trimmed text of
the maps anchor when present, else trimmed text of the fallback location
element when present, else the sentinel `"-"`. -/
theorem address_prioritized_fallback (u : String) (tt : Option String) (p : ListingPage) :
    (∀ t, p.mapsAnchorText = some t → (scrape_listing u tt p).address = strTrim t) ∧
    (p.mapsAnchorText = none → ∀ t, p.fallbackAddressEl = some t →
      (scrape_listing u tt p).address = strTrim t) ∧
    (p.mapsAnchorText = none → p.fallbackAddressEl = none →
      (scrape_listing u tt p).address = "-") := by
  refine ⟨fun t h => ?_, fun h1 t h2 => ?_, fun h1 h2 => ?_⟩ <;>
    simp [scrape_listing, getTextOrDash, *]

/-- Witness for C7: all three fallback branches at concrete pages. -/
theorem address_prioritized_fallback_witness :
    (scrape_listing "u" none mapsPage).address = strTrim "  St. James  " ∧
    (scrape_listing "u" none fbPage).address = strTrim " Bridgetown " ∧
    (scrape_listing "u" none emptyPage).address = "-" := by
  refine ⟨(address_prioritized_fallback "u" none mapsPage).1 "  St. James  " rfl,
    (address_prioritized_fallback "u" none fbPage).2.1 rfl " Bridgetown " rfl,
    (address_prioritized_fallback "u" none emptyPage).2.2 rfl rfl⟩

/-- Counterexample to C2 as stated: on `cexPage` the key `Land Area` is
present in the characteristics mapping (with value `""`), yet `Area` is not
that value: Python's `or` treats the empty string as falsy and falls
through to `Floor Area`. -/
theorem area_land_key_present_not_used :
    dictGet? (scrape_listing "u" none cexPage).characteristics "Land Area" = some "" ∧
    (scrape_listing "u" none cexPage).area = "1200 sqft" ∧
    (scrape_listing "u" none cexPage).area ≠ "" := by
  exact ⟨by decide, by decide, by decide⟩

/-- C2 (amended): `Area` equals the `Land Area` value when that key is
present with a non-empty value; when `Land Area` is absent or bound to the
empty string, `Area` equals the `Floor Area` value if that key is present
and the sentinel `"N/A"` otherwise. -/
theorem area_preference (u : String) (tt : Option String) (p : ListingPage) :
    (∀ v, dictGet? (scrape_listing u tt p).characteristics "Land Area" = some v → v ≠ "" →
      (scrape_listing u tt p).area = v) ∧
    (dictGet? (scrape_listing u tt p).characteristics "Land Area" = none →
      (scrape_listing u tt p).area =
        dictGetD (scrape_listing u tt p).characteristics "Floor Area" "N/A") ∧
    (dictGet? (scrape_listing u tt p).characteristics "Land Area" = some "" →
      (scrape_listing u tt p).area =
        dictGetD (scrape_listing u tt p).characteristics "Floor Area" "N/A") := by
  rw [scrape_listing_area]
  refine ⟨fun v hv hne => ?_, fun h => ?_, fun h => ?_⟩ <;>
    simp [areaOf, *]

/-- Witness for C2 (amended): both branches at concrete pages. -/
theorem area_preference_witness :
    (scrape_listing "u" none landPage).area = "5000 sqft" ∧
    (scrape_listing "u" none cexPage).area =
      dictGetD (scrape_listing "u" none cexPage).characteristics "Floor Area" "N/A" := by
  exact ⟨(area_preference "u" none landPage).1 "5000 sqft" (by decide) (by decide),
    (area_preference "u" none cexPage).2.2 (by decide)⟩

theorem dictInsert_of_fresh (d : List (String × String)) (k v : String)
    (h : ∀ kv ∈ d, kv.1 ≠ k) : dictInsert d k v = d ++ [(k, v)] := by
  unfold dictInsert
  rw [if_neg]
  simp only [List.any_eq_true, not_exists, not_and, Bool.not_eq_true]
  intro kv hkv
  exact beq_eq_false_iff_ne.mpr (h kv hkv)

theorem buildCharacteristics_loop_eq :
    ∀ (pairs acc : List (String × String)),
      (pairs.map (fun q => cleanLabel q.1)).Nodup →
      (∀ q ∈ pairs, ∀ kv ∈ acc, kv.1 ≠ cleanLabel q.1) →
      pairs.foldl (fun d li => dictInsert d (cleanLabel li.1) (strTrim li.2)) acc =
        acc ++ pairs.map (fun q => (cleanLabel q.1, strTrim q.2)) := by
  intro pairs
  induction pairs with
  | nil => intro acc _ _; simp
  | cons q rest ih =>
    intro acc hnd hdisj
    have hnd' : (cleanLabel q.1 :: rest.map (fun q => cleanLabel q.1)).Nodup := by
      simpa using hnd
    obtain ⟨hhead, htail⟩ := List.nodup_cons.mp hnd'
    simp only [List.foldl_cons, List.map_cons]
    rw [dictInsert_of_fresh _ _ _ (fun kv hkv => hdisj q (by simp) kv hkv)]
    rw [ih (acc ++ [(cleanLabel q.1, strTrim q.2)]) htail ?_]
    · simp
    · intro q' hq' kv hkv
      rcases List.mem_append.mp hkv with hkv | hkv
      · exact hdisj q' (List.mem_cons_of_mem q hq') kv hkv
      · simp only [List.mem_singleton] at hkv
        subst hkv
        intro hcontra
        have hc : cleanLabel q.1 = cleanLabel q'.1 := hcontra
        exact hhead (by rw [hc]; exact List.mem_map_of_mem (fun q => cleanLabel q.1) hq')

/-- C9: with a further-information section, the characteristics mapping is
formed by pairing labels and items positionally, mapping each trimmed,
colon-stripped label to the corresponding trimmed item (stated for pages
whose cleaned labels are pairwise distinct, so that each pair is one
entry); without the section the mapping is empty. -/
theorem characteristics_positional (u : String) (tt : Option String) (p : ListingPage) :
    (∀ labels items, p.furtherInfo = some (labels, items) →
      ((labels.zip items).map (fun q => cleanLabel q.1)).Nodup →
      (scrape_listing u tt p).characteristics =
        (labels.zip items).map (fun q => (cleanLabel q.1, strTrim q.2))) ∧
    (p.furtherInfo = none → (scrape_listing u tt p).characteristics = []) := by
  constructor
  · intro labels items hfi hnd
    rw [scrape_listing_characteristics, hfi]
    have := buildCharacteristics_loop_eq (labels.zip items) [] hnd (by simp)
    simpa [buildCharacteristics] using this
  · intro h
    rw [scrape_listing_characteristics, h]

/-- Witness for C9: a concrete two-entry further-information section is
paired positionally with labels trimmed and colon-stripped. -/
theorem characteristics_positional_witness :
    (scrape_listing "u" none c9Page).characteristics = [("Bedrooms", "3"), ("Bathrooms", "2")] := by
  exact ((characteristics_positional "u" none c9Page).1
    [" Bedrooms: ", "Bathrooms:"] [" 3 ", "2"] rfl (by decide)).trans (by decide)

theorem mem_of_dropPfxChars :
    ∀ (p s rest : List Char), dropPfxChars s p = some rest → ∀ c ∈ rest, c ∈ s := by
  intro p
  induction p with
  | nil =>
    intro s rest h c hc
    simp only [dropPfxChars, Option.some.injEq] at h
    subst h
    exact hc
  | cons b p ih =>
    intro s rest h c hc
    cases s with
    | nil => simp [dropPfxChars] at h
    | cons a s' =>
      simp only [dropPfxChars] at h
      split at h
      · exact List.mem_cons_of_mem a (ih s' rest h c hc)
      · exact absurd h (by simp)

theorem mem_replaceCharsAux_empty (p : List Char) :
    ∀ (n : Nat) (s : List Char) (c : Char), c ∈ replaceCharsAux p [] n s → c ∈ s := by
  intro n
  induction n with
  | zero =>
    intro s c hc
    cases s with
    | nil => simp [replaceCharsAux] at hc
    | cons a t => simpa [replaceCharsAux] using hc
  | succ n ih =>
    intro s c hc
    cases s with
    | nil => simp [replaceCharsAux] at hc
    | cons a t =>
      simp only [replaceCharsAux] at hc
      split at hc
      · rename_i rest hd
        by_cases hp : p.isEmpty = true
        · rw [if_pos hp] at hc
          rcases List.mem_cons.mp hc with rfl | hc'
          · exact List.mem_cons.mpr (Or.inl rfl)
          · exact List.mem_cons_of_mem a (ih t c hc')
        · rw [if_neg hp] at hc
          simp only [List.nil_append] at hc
          exact mem_of_dropPfxChars p (a :: t) rest hd c (ih rest c hc)
      · rcases List.mem_cons.mp hc with rfl | hc'
        · exact List.mem_cons.mpr (Or.inl rfl)
        · exact List.mem_cons_of_mem a (ih t c hc')

theorem mem_replaceChars_empty (p s : List Char) (c : Char)
    (h : c ∈ replaceChars p [] s) : c ∈ s :=
  mem_replaceCharsAux_empty p s.length s c h

theorem isWordChar_ascii (c : Char) (h : c.toNat < 128) :
    isWordChar c = (c.isAlphanum || c == '_') := by
  unfold isWordChar
  have h1 : decide (0xC0 ≤ c.toNat) = false := decide_eq_false (by omega)
  have h2 : (c.toNat == 0xAA) = false := beq_eq_false_iff_ne.mpr (by omega)
  have h3 : (c.toNat == 0xB2) = false := beq_eq_false_iff_ne.mpr (by omega)
  have h4 : (c.toNat == 0xB3) = false := beq_eq_false_iff_ne.mpr (by omega)
  have h5 : (c.toNat == 0xB5) = false := beq_eq_false_iff_ne.mpr (by omega)
  have h6 : (c.toNat == 0xB9) = false := beq_eq_false_iff_ne.mpr (by omega)
  have h7 : (c.toNat == 0xBA) = false := beq_eq_false_iff_ne.mpr (by omega)
  have h8 : (c.toNat == 0xBC) = false := beq_eq_false_iff_ne.mpr (by omega)
  have h9 : (c.toNat == 0xBD) = false := beq_eq_false_iff_ne.mpr (by omega)
  have h10 : (c.toNat == 0xBE) = false := beq_eq_false_iff_ne.mpr (by omega)
  simp [h1, h2, h3, h4, h5, h6, h7, h8, h9, h10]

theorem allowedChar_sanitizeChar_ascii (c : Char) (h : c.toNat < 128) :
    allowedChar (sanitizeChar c) = true := by
  unfold sanitizeChar
  rw [isWordChar_ascii c h]
  split
  · rename_i h2
    simpa [allowedChar, Bool.or_assoc] using h2
  · decide

/-- Counterexample to C4 as stated: Python's `\w` is Unicode-aware, so the
non-ASCII word character `ü` is kept by `re.sub(r'[^\w\-_.]', '_', ...)`
and the produced filename is not confined to `[A-Za-z0-9_.-]`. -/
theorem sanitize_filename_unicode_cex :
    sanitize_filename "https://bücher.example/sale" = "bücher.example_sale" ∧
    (sanitize_filename "https://bücher.example/sale").data.all allowedChar = false := by
  exact ⟨by decide, by decide⟩

/-- C4 (amended): the destination filename is derived deterministically by
stripping the scheme and replacing every character not matched by Python's
`\w` (and not `-` or `.`) with `_`; for every ASCII starting URL the
produced filename contains only characters from `[A-Za-z0-9_.-]`, and the
documented example maps as stated. -/
theorem sanitize_filename_spec :
    (∀ url : String, url.data.all isAsciiChar = true →
      (sanitize_filename url).data.all allowedChar = true) ∧
    sanitize_filename "https://example.com/for-rent?x=1" = "example.com_for-rent_x_1" := by
  constructor
  · intro url hascii
    show ((replaceChars "http://".data []
      (replaceChars "https://".data [] url.data)).map sanitizeChar).all allowedChar = true
    rw [List.all_map]
    refine List.all_eq_true.mpr ?_
    intro c hc
    have h2 : c ∈ url.data :=
      mem_replaceChars_empty _ _ c (mem_replaceChars_empty _ _ c hc)
    have h3 : c.toNat < 128 := by
      simpa [isAsciiChar] using List.all_eq_true.mp hascii c h2
    exact allowedChar_sanitizeChar_ascii c h3
  · decide

/-- Witness for C4 (amended): the documented example URL is ASCII and its
sanitized filename stays within `[A-Za-z0-9_.-]`. -/
theorem sanitize_filename_spec_witness :
    (sanitize_filename "https://example.com/for-rent?x=1").data.all allowedChar = true :=
  sanitize_filename_spec.1 "https://example.com/for-rent?x=1" (by decide)

theorem countRecords_append (d1 d2 : List PropertyData) (u : String) :
    countRecords (d1 ++ d2) u = countRecords d1 u + countRecords d2 u := by
  simp [countRecords, List.filter_append]

theorem countRecords_singleton (r : PropertyData) (u : String) :
    countRecords [r] u = if r.url == u then 1 else 0 := by
  simp only [countRecords, List.filter_cons]
  split <;> simp

theorem stateInv_empty : StateInv { scraped_urls := [], data := [] } := by
  intro u
  simp [StateInv, countRecords]

theorem stateInv_processListings (site : Site) (tt : Option String) :
    ∀ (hrefs : List String) (st : ScraperState),
      StateInv st → StateInv (processListings site tt hrefs st) := by
  intro hrefs
  induction hrefs with
  | nil => exact fun st h => h
  | cons href rest ih =>
    intro st hinv
    simp only [processListings]
    split
    · exact ih st hinv
    · rename_i hc
      rw [Bool.not_eq_true] at hc
      apply ih
      intro u
      have h0 := hinv u
      simp only [countRecords_append, countRecords_singleton, scrape_listing_url]
      by_cases hu : u = base_url ++ href
      · subst hu
        rw [hc, if_neg (by simp)] at h0
        simp [h0, List.contains_cons]
      · have hb : ((base_url ++ href) == u) = false := beq_eq_false_iff_ne.mpr (Ne.symm hu)
        simp [hb, List.contains_cons, h0, hu]

theorem contains_processListings (site : Site) (tt : Option String) :
    ∀ (hrefs : List String) (st : ScraperState) (u : String),
      st.scraped_urls.contains u = true →
      (processListings site tt hrefs st).scraped_urls.contains u = true := by
  intro hrefs
  induction hrefs with
  | nil => exact fun st u h => h
  | cons href rest ih =>
    intro st u h
    simp only [processListings]
    split
    · exact ih st u h
    · refine ih _ u ?_
      have hm : u ∈ st.scraped_urls := by simpa using h
      simp [List.contains_cons, hm]

theorem processListings_adds (site : Site) (tt : Option String) :
    ∀ (hrefs : List String) (st : ScraperState) (h : String), h ∈ hrefs →
      (processListings site tt hrefs st).scraped_urls.contains (base_url ++ h) = true := by
  intro hrefs
  induction hrefs with
  | nil => intro st h hmem; simp at hmem
  | cons href rest ih =>
    intro st h hmem
    rcases List.mem_cons.mp hmem with he | hmem'
    · subst he
      simp only [processListings]
      split
      · rename_i hcs
        exact contains_processListings site tt rest st _ hcs
      · exact contains_processListings site tt rest _ _ (by simp [List.contains_cons])
    · simp only [processListings]
      split
      · exact ih st h hmem'
      · exact ih _ h hmem'

theorem stateInv_scrape_page (site : Site) (tt : Option String) :
    ∀ (fuel : Nat) (url : String) (st : ScraperState) (out : ScraperState × List String),
      scrape_page site tt fuel url st = some out → StateInv st → StateInv out.1 := by
  intro fuel
  induction fuel with
  | zero => intro url st out h; exact absurd h (by simp [scrape_page])
  | succ n ih =>
    intro url st out h hinv
    simp only [scrape_page] at h
    split at h
    · injection h with h'
      subst h'
      exact stateInv_processListings site tt _ st hinv
    · split at h
      · exact absurd h (by simp)
      · rename_i str hs
        injection h with h'
        subst h'
        exact ih _ _ str hs (stateInv_processListings site tt _ st hinv)

theorem contains_scrape_page (site : Site) (tt : Option String) :
    ∀ (fuel : Nat) (url : String) (st : ScraperState) (out : ScraperState × List String)
      (u : String),
      scrape_page site tt fuel url st = some out →
      st.scraped_urls.contains u = true → out.1.scraped_urls.contains u = true := by
  intro fuel
  induction fuel with
  | zero => intro url st out u h; exact absurd h (by simp [scrape_page])
  | succ n ih =>
    intro url st out u h hc
    simp only [scrape_page] at h
    split at h
    · injection h with h'
      subst h'
      exact contains_processListings site tt _ st u hc
    · split at h
      · exact absurd h (by simp)
      · rename_i str hs
        injection h with h'
        subst h'
        exact ih _ _ str u hs (contains_processListings site tt _ st u hc)

theorem scrape_page_discovers (site : Site) (tt : Option String) :
    ∀ (fuel : Nat) (url : String) (st : ScraperState) (out : ScraperState × List String)
      (p h : String),
      scrape_page site tt fuel url st = some out →
      p ∈ out.2 → h ∈ (site.fetchIndex p).listingHrefs →
      out.1.scraped_urls.contains (base_url ++ h) = true := by
  intro fuel
  induction fuel with
  | zero => intro url st out p h hr; exact absurd hr (by simp [scrape_page])
  | succ n ih =>
    intro url st out p h hr hp hh
    simp only [scrape_page] at hr
    split at hr
    · injection hr with h'
      subst h'
      simp only [List.mem_singleton] at hp
      subst hp
      exact processListings_adds site tt _ st h hh
    · split at hr
      · exact absurd hr (by simp)
      · rename_i str hs
        injection hr with h'
        subst h'
        simp only [List.mem_cons] at hp
        rcases hp with hp | hp
        · subst hp
          exact contains_scrape_page site tt n _ _ str _ hs
            (processListings_adds site tt _ st h hh)
        · exact ih _ _ str p h hs hp hh

theorem data_tt_processListings (site : Site) (tt : Option String) :
    ∀ (hrefs : List String) (st : ScraperState),
      (∀ r ∈ st.data, r.transaction_type = tt) →
      ∀ r ∈ (processListings site tt hrefs st).data, r.transaction_type = tt := by
  intro hrefs
  induction hrefs with
  | nil => exact fun st h => h
  | cons href rest ih =>
    intro st hall
    simp only [processListings]
    split
    · exact ih st hall
    · refine ih _ ?_
      intro r hr
      rcases List.mem_append.mp hr with hr | hr
      · exact hall r hr
      · simp only [List.mem_singleton] at hr
        subst hr
        exact scrape_listing_tt _ tt _

theorem data_tt_scrape_page (site : Site) (tt : Option String) :
    ∀ (fuel : Nat) (url : String) (st : ScraperState) (out : ScraperState × List String),
      scrape_page site tt fuel url st = some out →
      (∀ r ∈ st.data, r.transaction_type = tt) →
      ∀ r ∈ out.1.data, r.transaction_type = tt := by
  intro fuel
  induction fuel with
  | zero => intro url st out h; exact absurd h (by simp [scrape_page])
  | succ n ih =>
    intro url st out h hall
    simp only [scrape_page] at h
    split at h
    · injection h with h'
      subst h'
      exact data_tt_processListings site tt _ st hall
    · split at h
      · exact absurd h (by simp)
      · rename_i str hs
        injection h with h'
        subst h'
        exact ih _ _ str hs (data_tt_processListings site tt _ st hall)

theorem indexChain_walk (site : Site) (tt : Option String) :
    ∀ (urls : List String) (start : String), IndexChain site start urls →
      ∀ (fuel : Nat) (st0 : ScraperState), urls.length ≤ fuel →
        Option.map Prod.snd (scrape_page site tt fuel start st0) = some urls := by
  intro urls start hchain
  induction hchain with
  | last u hu =>
    intro fuel st0 hfuel
    cases fuel with
    | zero => simp at hfuel
    | succ n =>
      simp only [scrape_page, hu]
      rfl
  | step u h rest hu _ ih =>
    intro fuel st0 hfuel
    cases fuel with
    | zero => simp at hfuel
    | succ n =>
      have hn : rest.length ≤ n := by
        simp only [List.length_cons] at hfuel
        omega
      have hrec := ih n (processListings site tt (site.fetchIndex u).listingHrefs st0) hn
      rcases Option.map_eq_some'.mp hrec with ⟨out, hout, hsnd⟩
      simp only [scrape_page, hu, hout]
      simp [hsnd]

/-- C1: when the walk completes, a listing URL discoverable from two
different visited index pages has exactly one record in the result
collection (the URL is entered into the visited set before extraction, so
extraction happens at most once per URL). -/
theorem dedup_extract_once (site : Site) (tt : Option String) (fuel : Nat)
    (start u h1 h2 p1 p2 : String) (st : ScraperState) (tr : List String)
    (hrun : scrape_page site tt fuel start { scraped_urls := [], data := [] } = some (st, tr))
    (hp1 : p1 ∈ tr) (hp2 : p2 ∈ tr) (hne : p1 ≠ p2)
    (hh1 : h1 ∈ (site.fetchIndex p1).listingHrefs)
    (hh2 : h2 ∈ (site.fetchIndex p2).listingHrefs)
    (hu1 : base_url ++ h1 = u) (hu2 : base_url ++ h2 = u) :
    countRecords st.data u = 1 := by
  have hinv : StateInv st :=
    stateInv_scrape_page site tt fuel start _ (st, tr) hrun stateInv_empty
  have hc : st.scraped_urls.contains u = true := by
    rw [← hu1]
    exact scrape_page_discovers site tt fuel start _ (st, tr) p1 h1 hrun hp1 hh1
  have := hinv u
  rw [hc] at this
  simpa using this

/-- Witness for C1: on the concrete two-page site, the listing `/a` listed
on both index pages yields exactly one record. -/
theorem dedup_extract_once_witness : countRecords wSt.data (base_url ++ "/a") = 1 := by
  have hrun : scrape_page wSite none 2 wStart { scraped_urls := [], data := [] } =
      some (wSt, wTr) := by decide
  exact dedup_extract_once wSite none 2 wStart (base_url ++ "/a") "/a" "/a"
    wStart (base_url ++ "/p2") wSt wTr hrun (by decide) (by decide) (by decide)
    (by decide) (by decide) rfl rfl

/-- C5: the transaction type is derived once from the starting URL (by the
substring rule of `determine_transaction_type`), and every record produced
by the run carries that same value. -/
theorem transaction_type_constant (site : Site) (start : String) (fuel : Nat)
    (st : ScraperState) (tr : List String)
    (hrun : scrape site start fuel = some (st, tr)) :
    ∀ r ∈ st.data, r.transaction_type = determine_transaction_type start := by
  refine data_tt_scrape_page site (determine_transaction_type start) fuel start
    { scraped_urls := [], data := [] } (st, tr) hrun ?_
  intro r hr
  simp at hr

/-- Witness for C5: a record of the example run carries the transaction
type derived from the example start URL. -/
theorem transaction_type_constant_witness :
    wRec.transaction_type = determine_transaction_type wStart := by
  have hrun : scrape wSite wStart 2 = some (wSt, wTr) := rfl
  exact transaction_type_constant wSite wStart 2 wSt wTr hrun wRec (by decide)

/-- C6: for a finite chain of index pages whose last page has no next link
and in which no page repeats, the walk (given fuel at least the chain
length) terminates and its trace of visited index pages is exactly the
chain — each page visited exactly once. -/
theorem pagination_visits_each_once (site : Site) (tt : Option String) (fuel : Nat)
    (start : String) (urls : List String) (st0 : ScraperState)
    (hchain : IndexChain site start urls) (hnd : urls.Nodup)
    (hfuel : urls.length ≤ fuel) :
    Option.map Prod.snd (scrape_page site tt fuel start st0) = some urls :=
  indexChain_walk site tt urls start hchain fuel st0 hfuel

/-- Witness for C6: the example site is a two-page chain and the walk's
trace is exactly those two pages. -/
theorem pagination_visits_each_once_witness :
    Option.map Prod.snd
        (scrape_page wSite none 2 wStart { scraped_urls := [], data := [] }) =
      some [wStart, base_url ++ "/p2"] := by
  refine pagination_visits_each_once wSite none 2 wStart [wStart, base_url ++ "/p2"]
    { scraped_urls := [], data := [] } ?_ (by decide) (by decide)
  exact IndexChain.step wStart "/p2" [base_url ++ "/p2"] (by decide)
    (IndexChain.last (base_url ++ "/p2") (by decide))
